import Mathlib

set_option maxRecDepth 10000

/-!
Shallow embedding of the Guardian Route core: the spatial grid builder
(`scripts/utils/spatial.py`), the tile-edge overlay mapper
(`scripts/06_prepare_network.py`), risk weighting, route planning, route
metrics and route comparison (`scripts/utils/routing.py`), and the risk
aggregator (`scripts/utils/cynet_wrapper.py`).

Machine floats of the source are modelled as exact rationals; external
geometry (shapely lengths and intersections) and coordinate reprojection
enter the model as explicit inputs.  Python dicts are modelled as
association lists in insertion order (first binding wins on lookup).
-/

/-- Association-list lookup in insertion order, modelling a Python dict
lookup (`d[k]` / `d.get(k)`). -/
def lookupA {α β : Type} [DecidableEq α] (l : List (α × β)) (k : α) : Option β :=
  match l with
  | [] => none
  | p :: t => if p.1 = k then some p.2 else lookupA t k

/-- Node identifiers of the street network (`networkx` node ids). -/
abbrev Node : Type := ℕ

/-- An edge of the multigraph is tagged `(u, v, key)` so parallel edges
between the same node pair stay distinguishable. -/
abbrev EdgeKey : Type := Node × Node × ℕ

/-- Per-edge attribute record of the street network.  `length` and
`travel_time` are the OSM attributes; `risk` and `risk_weight` are absent
(`none`) until `apply_risk_weights` sets them. -/
structure EdgeData where
  length : ℚ
  travel_time : ℚ
  geometry : List (ℚ × ℚ)
  risk : Option ℚ
  risk_weight : Option ℚ
deriving DecidableEq

/-- The street network: nodes with planar coordinates, and keyed edges in
insertion order (a `networkx.MultiDiGraph`). -/
structure Graph where
  nodes : List (Node × ℚ × ℚ)
  edges : List (EdgeKey × EdgeData)
deriving DecidableEq

/-- One record of the tile-edge overlay: a tile id together with the
fraction of the edge's length lying inside that tile
(`{'tile_id': ..., 'fraction': ...}` in `06_prepare_network.py`). -/
structure Contribution where
  tile_id : String
  fraction : ℚ
deriving DecidableEq

/-- `tile_risks.get(tile_id, 0.0)` of `apply_risk_weights`
(`routing.py` line 52): a missing tile defaults to risk 0. -/
def tileRisk (tile_risks : List (String × ℚ)) (t : String) : ℚ :=
  (lookupA tile_risks t).getD 0

/-- The accumulation loop of `apply_risk_weights` (`routing.py` lines
44-58): when the edge has an overlay entry, sum `tile_risk * fraction`
over its contributions; otherwise the edge risk is 0. -/
def edgeRisk (mapping : List (EdgeKey × List Contribution))
    (tile_risks : List (String × ℚ)) (e : EdgeKey) : ℚ :=
  match lookupA mapping e with
  | some cs => cs.foldl (fun acc c => acc + tileRisk tile_risks c.tile_id * c.fraction) 0
  | none => 0

/-- `apply_risk_weights` (`routing.py` lines 16-72): every edge receives
`risk` and `risk_weight = length * (1 + risk)`; the mutation of the
`networkx` graph is modelled by explicit state passing (input graph in,
updated graph out). -/
def applyRiskWeights (G : Graph) (mapping : List (EdgeKey × List Contribution))
    (tile_risks : List (String × ℚ)) : Graph :=
  { G with
    edges := G.edges.map (fun p =>
      let r := edgeRisk mapping tile_risks p.1
      (p.1, { p.2 with risk := some r, risk_weight := some (p.2.length * (1 + r)) })) }

/-- The route-planner weight selector: the string passed as `weight=` to
`ox.routing.shortest_path` (`'length'` or `'risk_weight'`). -/
inductive WeightAttr where
  | length
  | riskWeight
deriving DecidableEq

/-- Attribute access `data.get(weight, 1)` used by `networkx` weight
functions; `length` is always present on edges of the data model, while a
missing `risk_weight` falls back to the `networkx` default 1. -/
def attrWeight : WeightAttr → EdgeData → ℚ
  | .length, d => d.length
  | .riskWeight, d => d.risk_weight.getD 1

/-- `G.get_edge_data(u, v)`: the attribute records of all parallel edges
from `u` to `v`, in key insertion order. -/
def getEdgeData (G : Graph) (u v : Node) : List EdgeData :=
  (G.edges.filter (fun p => p.1.1 = u ∧ p.1.2.1 = v)).map (fun p => p.2)

/-- The `networkx` multigraph weight of one step `u → v`: the minimum of
the selected attribute over all parallel edges, `none` when `v` is not a
successor of `u`. -/
def stepWeight (G : Graph) (w : WeightAttr) (u v : Node) : Option ℚ :=
  match getEdgeData G u v with
  | [] => none
  | d :: ds => some (ds.foldl (fun m e => min m (attrWeight w e)) (attrWeight w d))

/-- Total selected weight of a node sequence; `none` when some consecutive
pair has no connecting edge. -/
def pathWeight (G : Graph) (w : WeightAttr) : List Node → Option ℚ
  | [] => some 0
  | [_] => some 0
  | u :: v :: rest =>
    match stepWeight G w u v, pathWeight G w (v :: rest) with
    | some a, some b => some (a + b)
    | _, _ => none

/-- Successor nodes of `u`, in edge insertion order, without duplicates. -/
def successors (G : Graph) (u : Node) : List Node :=
  ((G.edges.filter (fun p => p.1.1 = u)).map (fun p => p.1.2.1)).dedup

/-- All simple paths from `u` to `t` avoiding `visited`, with enough fuel;
the deterministic candidate enumeration behind the shortest-path search. -/
def simplePathsAux (G : Graph) (t : Node) : ℕ → Node → List Node → List (List Node)
  | 0, _, _ => []
  | fuel + 1, u, visited =>
    if u = t then [[u]]
    else
      ((successors G u).filter (fun v => ¬ (u :: visited).contains v)).flatMap
        (fun v => (simplePathsAux G t fuel v (u :: visited)).map (fun p => u :: p))

/-- `ox.routing.shortest_path`: a minimum-total-weight route from `s` to
`t` (ties resolved deterministically by enumeration order), `none` when no
path exists. -/
def shortestPath (G : Graph) (w : WeightAttr) (s t : Node) : Option (List Node) :=
  ((simplePathsAux G t (G.nodes.length + 1) s []).foldl
    (fun best p =>
      match pathWeight G w p with
      | none => best
      | some c =>
        match best with
        | none => some (p, c)
        | some (bp, bc) => if c < bc then some (p, c) else some (bp, bc))
    none).map (fun b => b.1)

/-- `ox.distance.nearest_nodes`: the node nearest to a query point by
planar distance (first wins on ties). -/
def nearestNode (G : Graph) (q : ℚ × ℚ) : Option Node :=
  (G.nodes.foldl
    (fun best n =>
      let dist := (n.2.1 - q.1) * (n.2.1 - q.1) + (n.2.2 - q.2) * (n.2.2 - q.2)
      match best with
      | none => some (n.1, dist)
      | some (b, bd) => if dist < bd then some (n.1, dist) else some (b, bd))
    none).map (fun b => b.1)

/-- `find_safe_route` (`routing.py` lines 75-105): snap both endpoints to
their nearest nodes, then run the weighted shortest-path search. -/
def findSafeRoute (G : Graph) (origin_point dest_point : ℚ × ℚ)
    (w : WeightAttr) : Option (List Node) :=
  match nearestNode G origin_point, nearestNode G dest_point with
  | some s, some t => shortestPath G w s t
  | _, _ => none

/-- The metrics record returned by `calculate_route_metrics`. -/
structure RouteMetrics where
  length : ℚ
  cumulative_risk : ℚ
  travel_time : ℚ
  num_edges : ℕ
deriving DecidableEq

/-- The all-zero metrics returned for a missing or too-short route. -/
def zeroMetrics : RouteMetrics :=
  { length := 0, cumulative_risk := 0, travel_time := 0, num_edges := 0 }

/-- Consecutive node pairs of a route (the `for i in range(len(route)-1)`
loop index set). -/
def routePairs : List Node → List (Node × Node)
  | u :: v :: rest => (u, v) :: routePairs (v :: rest)
  | _ => []

/-- `calculate_route_metrics` (`routing.py` lines 108-162): a `None` or
shorter-than-2 route yields all zeros; otherwise each consecutive pair
contributes the attributes of the first parallel edge between it when one
exists, and is skipped silently otherwise. -/
def calculateRouteMetrics (G : Graph) (route : Option (List Node)) : RouteMetrics :=
  match route with
  | none => zeroMetrics
  | some r =>
    if r.length < 2 then zeroMetrics
    else
      (routePairs r).foldl
        (fun acc p =>
          match (getEdgeData G p.1 p.2).head? with
          | none => acc
          | some d =>
            { length := acc.length + d.length
              cumulative_risk := acc.cumulative_risk + d.risk.getD 0 * d.length
              travel_time := acc.travel_time + d.travel_time
              num_edges := acc.num_edges + 1 })
        zeroMetrics

/-- The per-edge metrics contribution used to restate the metrics loop. -/
def edgeMetrics (d : EdgeData) : RouteMetrics :=
  { length := d.length
    cumulative_risk := d.risk.getD 0 * d.length
    travel_time := d.travel_time
    num_edges := 1 }

/-- Componentwise sum of two metrics records. -/
def addMetrics (a b : RouteMetrics) : RouteMetrics :=
  { length := a.length + b.length
    cumulative_risk := a.cumulative_risk + b.cumulative_risk
    travel_time := a.travel_time + b.travel_time
    num_edges := a.num_edges + b.num_edges }

/-- Componentwise sum of the contributions of a list of edges. -/
def metricsOfEdges (l : List EdgeData) : RouteMetrics :=
  l.foldr (fun d acc => addMetrics (edgeMetrics d) acc) zeroMetrics

/-- The comparison record returned by `calculate_risk_reduction`. -/
structure RiskReduction where
  risk_reduction_pct : ℚ
  absolute_risk_reduction : ℚ
  length_difference_m : ℚ
  length_increase_pct : ℚ
  safe_route_risk : ℚ
  fast_route_risk : ℚ
deriving DecidableEq

/-- `calculate_risk_reduction` (`routing.py` lines 261-295): guarded
percentage formulas over two metrics records. -/
def calculateRiskReduction (safe_metrics fast_metrics : RouteMetrics) : RiskReduction :=
  let safe_risk := safe_metrics.cumulative_risk
  let fast_risk := fast_metrics.cumulative_risk
  let risk_reduction_pct : ℚ :=
    if fast_risk = 0 then 0 else (fast_risk - safe_risk) / fast_risk * 100
  let length_difference := safe_metrics.length - fast_metrics.length
  let length_increase_pct : ℚ :=
    if 0 < fast_metrics.length then length_difference / fast_metrics.length * 100 else 0
  { risk_reduction_pct := risk_reduction_pct
    absolute_risk_reduction := fast_risk - safe_risk
    length_difference_m := length_difference
    length_increase_pct := length_increase_pct
    safe_route_risk := safe_risk
    fast_route_risk := fast_risk }

/-- Overlay-mapper input for one edge: its key, its geometric length in
the projected CRS, and for each candidate tile the geometric length of
the edge-tile intersection (both lengths are computed by shapely in the
source and therefore enter the model as data). -/
structure EdgeGeom where
  eid : EdgeKey
  edge_length : ℚ
  intersections : List (String × ℚ)
deriving DecidableEq

/-- The inner candidate loop of `create_tile_edge_mapping`
(`06_prepare_network.py` lines 137-163): keep only intersections of
positive length and turn each into a raw fraction `ilen / edge_length`. -/
def edgeTileContributions (edge_length : ℚ) (cands : List (String × ℚ)) : List Contribution :=
  (cands.filter (fun c => 0 < c.2)).map (fun c => { tile_id := c.1, fraction := c.2 / edge_length })

/-- The normalisation step of `create_tile_edge_mapping`
(`06_prepare_network.py` lines 165-170): when the raw fractions have a
positive total, divide each by that total. -/
def normalizeContributions (cs : List Contribution) : List Contribution :=
  let total := (cs.map (fun c => c.fraction)).sum
  if 0 < total then cs.map (fun c => { tile_id := c.tile_id, fraction := c.fraction / total })
  else cs

/-- `create_tile_edge_mapping` (`06_prepare_network.py` lines 79-179):
zero-length edges are skipped, edges with no positive-length intersection
get no entry, all others get their normalised contribution list. -/
def createTileEdgeMapping (edges : List EdgeGeom) : List (EdgeKey × List Contribution) :=
  edges.flatMap (fun e =>
    if e.edge_length = 0 then []
    else
      let cs := edgeTileContributions e.edge_length e.intersections
      if cs.isEmpty then [] else [(e.eid, normalizeContributions cs)])

/-- A tile of the spatial grid: identifier and projected (UTM) bounds.
The reprojection of the stored polygons back to WGS84
(`spatial.py` line 86) is external and does not change identifiers. -/
structure Tile where
  tile_id : String
  xmin : ℚ
  ymin : ℚ
  xmax : ℚ
  ymax : ℚ
deriving DecidableEq

/-- The error `np.arange` raises when the step is zero; the only failure
`create_spatial_grid` can produce (it performs no parameter validation). -/
inductive GridError where
  | zeroDivision
deriving DecidableEq

/-- Element count of `np.arange(start, stop, step)` for a nonzero step:
`max(ceil((stop - start) / step), 0)`. -/
def arangeLen (start stop step : ℚ) : ℕ :=
  (max ⌈(stop - start) / step⌉ 0).toNat

/-- `create_spatial_grid` (`spatial.py` lines 27-97) after the corner
reprojection (external; the UTM bounds are the model's inputs): lay an
axis-aligned lattice from the minimum corner with step `tile_size` and
emit one square tile `tile_{i}_{j}` per lattice point.  A zero tile size
makes `np.arange` raise; no other validation exists in the source. -/
def createSpatialGrid (xmin ymin xmax ymax tile_size : ℚ) :
    Except GridError (List Tile) :=
  if tile_size = 0 then .error .zeroDivision
  else
    let xs := (List.range (arangeLen xmin xmax tile_size)).map (fun i => xmin + i * tile_size)
    let ys := (List.range (arangeLen ymin ymax tile_size)).map (fun j => ymin + j * tile_size)
    .ok (xs.enum.flatMap (fun ix =>
      ys.enum.map (fun jy =>
        { tile_id := "tile_" ++ toString ix.1 ++ "_" ++ toString jy.1
          xmin := ix.2
          ymin := jy.2
          xmax := ix.2 + tile_size
          ymax := jy.2 + tile_size })))

/-- One step of the Mersenne Twister seeding recurrence used by
`np.random.seed` (Knuth-style initialiser of MT19937, 32-bit words). -/
def mtSeedStep (prev i : ℕ) : ℕ :=
  (1812433253 * (prev ^^^ (prev >>> 30)) + i) &&& 4294967295

/-- The 624-word MT19937 state produced by `np.random.seed(seed)`
(most recent word first; reversed before use). -/
def mtInitRev (seed : ℕ) : List ℕ :=
  (List.range 623).foldl (fun l i => mtSeedStep (l.headD 0) (i + 1) :: l)
    [seed &&& 4294967295]

/-- The MT19937 state after seeding, in index order. -/
def mtInit (seed : ℕ) : List ℕ :=
  (mtInitRev seed).reverse

/-- One in-place update of the MT19937 block-generation loop at index `i`
(the generator's "twist"). -/
def mtTwistStep (l : List ℕ) (i : ℕ) : List ℕ :=
  let y := (l.getD i 0 &&& 2147483648) + (l.getD ((i + 1) % 624) 0 &&& 2147483647)
  let v := l.getD ((i + 397) % 624) 0 ^^^ (y >>> 1) ^^^ (if y &&& 1 = 1 then 2567483615 else 0)
  l.set i v

/-- A full 624-word MT19937 block generation. -/
def mtTwist (l : List ℕ) : List ℕ :=
  (List.range 624).foldl mtTwistStep l

/-- The MT19937 output tempering. -/
def mtTemper (y0 : ℕ) : ℕ :=
  let y1 := y0 ^^^ (y0 >>> 11)
  let y2 := y1 ^^^ ((y1 <<< 7) &&& 2636928640)
  let y3 := y2 ^^^ ((y2 <<< 15) &&& 4022730752)
  y3 ^^^ (y3 >>> 18)

/-- The `i`-th 32-bit output of `np.random` after `np.random.seed(seed)`. -/
def mtOutput (seed i : ℕ) : ℕ :=
  mtTemper (((List.range (i / 624 + 1)).foldl (fun l _ => mtTwist l) (mtInit seed)).getD
    (i % 624) 0)

/-- The `j`-th draw of `np.random.random()` after `np.random.seed(seed)`:
two 32-bit outputs combined into a 53-bit dyadic rational in `[0, 1)`. -/
def mtRandomDouble (seed j : ℕ) : ℚ :=
  ((mtOutput seed (2 * j) >>> 5) * 67108864 + (mtOutput seed (2 * j + 1) >>> 6) : ℕ)
    / 9007199254740992

/-- The external predictor capability: either a model with a `predict`
method (a function from the horizon's instants to per-tile probability
sequences), or a model without one (`predict` raises `AttributeError`). -/
inductive PredictorModel where
  | available (predict : List ℕ → List (String × List ℚ))
  | unavailable

/-- Python's `max` over a probability sequence.  (On an empty sequence
Python raises `ValueError`; the predictor emits one probability per
horizon instant, so the sequence is never empty; the model returns 0
there.) -/
def pyMax (l : List ℚ) : ℚ :=
  match l with
  | [] => 0
  | h :: t => t.foldl max h

/-- `reference_time.replace(minute=0, second=0, microsecond=0)` with
instants modelled as seconds: floor to the start of the hour. -/
def floorToHour (t : ℕ) : ℕ :=
  t - t % 3600

/-- The 4-hour horizon of `predict_next_4_hours`
(`cynet_wrapper.py` lines 34-40). -/
def predictionHours (reference_time : ℕ) : List ℕ :=
  (List.range 4).map (fun i => floorToHour reference_time + 3600 * i)

/-- `predict_next_4_hours` (`cynet_wrapper.py` lines 13-68): floor the
reference instant to its hour, build the 4-hour horizon, then either take
each tile's maximum predicted probability (cold-start tiles get 0.0), or
— when the model has no `predict` method — fall back to
`np.random.seed(42)` followed by one `np.random.random() * 0.3` draw per
tile in order. -/
def predictNext4Hours (model : PredictorModel) (tiles : List String)
    (reference_time : ℕ) : List (String × ℚ) :=
  let hours := predictionHours reference_time
  match model with
  | .available f =>
    let predictions := f hours
    tiles.map (fun t =>
      match lookupA predictions t with
      | some ps => (t, pyMax ps)
      | none => (t, 0))
  | .unavailable =>
    tiles.enum.map (fun p => (p.2, mtRandomDouble 42 p.1 * (3 / 10)))

theorem lookupA_mem {α β : Type} [DecidableEq α] {l : List (α × β)} {k : α} {v : β}
    (h : lookupA l k = some v) : (k, v) ∈ l := by
  induction l with
  | nil => simp [lookupA] at h
  | cons p t ih =>
    rw [lookupA] at h
    split at h
    · next hp =>
      injection h with h2
      subst h2
      subst hp
      simp
    · exact List.mem_cons_of_mem _ (ih h)

theorem foldl_add_map {α : Type} (f : α → ℚ) (l : List α) (a : ℚ) :
    l.foldl (fun acc c => acc + f c) a = a + (l.map f).sum := by
  induction l generalizing a with
  | nil => simp
  | cons c t ih => simp [ih, add_assoc]

theorem tileRisk_nonneg (risks : List (String × ℚ)) (t : String)
    (hr : ∀ q ∈ risks, 0 ≤ q.2) : 0 ≤ tileRisk risks t := by
  rw [tileRisk]
  cases h : lookupA risks t with
  | none => simp
  | some r => simpa using hr (t, r) (lookupA_mem h)

theorem edgeRisk_nonneg (mapping : List (EdgeKey × List Contribution))
    (risks : List (String × ℚ)) (e : EdgeKey)
    (hr : ∀ q ∈ risks, 0 ≤ q.2)
    (hf : ∀ p ∈ mapping, ∀ c ∈ p.2, 0 ≤ c.fraction) :
    0 ≤ edgeRisk mapping risks e := by
  rw [edgeRisk]
  split
  · next cs hcs =>
    rw [foldl_add_map]
    rw [zero_add]
    apply List.sum_nonneg
    intro x hx
    rcases List.mem_map.mp hx with ⟨c, hc, rfl⟩
    exact mul_nonneg (tileRisk_nonneg risks c.tile_id hr)
      (hf _ (lookupA_mem hcs) c hc)
  · exact le_refl 0

/-- C1 (amended): after `apply_risk_weights`, every edge carries
`risk = Σ tile_risk(tile_id) * fraction` over its overlay contributions
(0 when it has no overlay entry, and missing tiles defaulting to 0) and
`risk_weight = length * (1 + risk)`; with nonnegative length and
fractions and tile risks in `[0, 1]`, `risk_weight ≥ length`, with
equality iff `risk = 0` **or the edge's length is 0** (the original
claim's "equality iff risk = 0" fails on zero-length edges). -/
theorem C1_graph_weighter_postcondition (G : Graph)
    (mapping : List (EdgeKey × List Contribution)) (risks : List (String × ℚ))
    (e : EdgeKey) (d : EdgeData) (hmem : (e, d) ∈ G.edges)
    (hlen : 0 ≤ d.length)
    (hrisks : ∀ q ∈ risks, 0 ≤ q.2 ∧ q.2 ≤ 1)
    (hfrac : ∀ p ∈ mapping, ∀ c ∈ p.2, 0 ≤ c.fraction) :
    (e, { d with risk := some (edgeRisk mapping risks e),
                 risk_weight := some (d.length * (1 + edgeRisk mapping risks e)) })
        ∈ (applyRiskWeights G mapping risks).edges
  ∧ edgeRisk mapping risks e
      = (match lookupA mapping e with
         | some cs => ((cs.map (fun c => tileRisk risks c.tile_id * c.fraction)).sum)
         | none => 0)
  ∧ d.length ≤ d.length * (1 + edgeRisk mapping risks e)
  ∧ (d.length * (1 + edgeRisk mapping risks e) = d.length
      ↔ edgeRisk mapping risks e = 0 ∨ d.length = 0) := by
  have hr0 : 0 ≤ edgeRisk mapping risks e :=
    edgeRisk_nonneg mapping risks e (fun q hq => (hrisks q hq).1) hfrac
  refine ⟨?_, ?_, ?_, ?_⟩
  · exact List.mem_map_of_mem _ hmem
  · rw [edgeRisk]
    split
    · next cs hcs => rw [foldl_add_map, zero_add]
    · rfl
  · nlinarith
  · have hsplit : d.length * (1 + edgeRisk mapping risks e)
        = d.length + d.length * edgeRisk mapping risks e := by ring
    rw [hsplit, add_right_eq_self, mul_eq_zero]
    exact or_comm

/-- Concrete zero-length edge used to refute the original C1 biconditional. -/
def gC1 : Graph :=
  { nodes := [(0, 0, 0), (1, 1, 0)]
    edges := [((0, 1, 0), { length := 0, travel_time := 0, geometry := [],
                            risk := none, risk_weight := none })] }

/-- Overlay mapping giving the zero-length edge a full-fraction tile. -/
def mC1 : List (EdgeKey × List Contribution) :=
  [((0, 1, 0), [{ tile_id := "tile_0_0", fraction := 1 }])]

/-- Risk map assigning risk 1 (inside `[0, 1]`) to that tile. -/
def rC1 : List (String × ℚ) :=
  [("tile_0_0", 1)]

/-- C1 counterexample: on a zero-length edge with a full-fraction
contribution of a risk-1 tile, the weighted edge has `risk = 1` and
`risk_weight = 0 = length`, so `risk_weight = length` holds while
`risk = 0` fails — the claimed "equality iff risk = 0" is false. -/
theorem C1_counterexample :
    edgeRisk mC1 rC1 (0, 1, 0) = 1
  ∧ (applyRiskWeights gC1 mC1 rC1).edges.map (fun p => (p.2.risk_weight, p.2.length))
      = [(some 0, 0)]
  ∧ ¬ ((some (0 : ℚ) = some (0 : ℚ)) → edgeRisk mC1 rC1 (0, 1, 0) = 0) := by
  have h1 : edgeRisk mC1 rC1 (0, 1, 0) = 1 := by with_unfolding_all rfl
  refine ⟨h1, by with_unfolding_all rfl, ?_⟩
  intro h
  exact absurd (h rfl) (by rw [h1]; norm_num)

/-- Concrete positive-length edge witnessing the amended C1. -/
def gC1w : Graph :=
  { nodes := [(0, 0, 0), (1, 1, 0)]
    edges := [((0, 1, 0), { length := 2, travel_time := 3, geometry := [],
                            risk := none, risk_weight := none })] }

/-- C1 witness: the amended theorem applied to a length-2 edge whose tile
has risk 1/2, giving `risk_weight = 3 ≥ 2` with equality failing. -/
theorem C1_witness :
    ((0, 1, 0),
     ({ length := 2, travel_time := 3, geometry := [], risk := some (edgeRisk mC1 [("tile_0_0", 1/2)] (0, 1, 0)),
        risk_weight := some (2 * (1 + edgeRisk mC1 [("tile_0_0", 1/2)] (0, 1, 0))) } : EdgeData))
        ∈ (applyRiskWeights gC1w mC1 [("tile_0_0", 1/2)]).edges
  ∧ (2 : ℚ) ≤ 2 * (1 + edgeRisk mC1 [("tile_0_0", 1/2)] (0, 1, 0)) := by
  have h := C1_graph_weighter_postcondition gC1w mC1 [("tile_0_0", 1/2)] (0, 1, 0)
    { length := 2, travel_time := 3, geometry := [], risk := none, risk_weight := none }
    (List.mem_cons_self _ _) (by norm_num)
    (of_decide_eq_true (by with_unfolding_all rfl))
    (of_decide_eq_true (by with_unfolding_all rfl))
  exact ⟨h.1, h.2.2.1⟩

/-- C4 (confirmed): `apply_risk_weights` only sets the `risk` and
`risk_weight` attributes — the node set (with coordinates) and every
pre-existing edge attribute (`length`, `travel_time`, `geometry`) of the
graph passed in are unchanged in the returned weighted view. -/
theorem C4_frame_property (G : Graph) (mapping : List (EdgeKey × List Contribution))
    (risks : List (String × ℚ)) :
    (applyRiskWeights G mapping risks).nodes = G.nodes
  ∧ (applyRiskWeights G mapping risks).edges.map
      (fun p => (p.1, p.2.length, p.2.travel_time, p.2.geometry))
    = G.edges.map (fun p => (p.1, p.2.length, p.2.travel_time, p.2.geometry)) := by
  refine ⟨rfl, ?_⟩
  rw [applyRiskWeights, List.map_map]
  rfl

/-- C9 (confirmed): `calculate_risk_reduction` computes
`risk_reduction_pct` by the percentage formula when
`fast.cumulative_risk ≠ 0`, returns 0 instead of dividing by zero when it
is 0, and likewise returns `length_increase_pct = 0` when
`fast.length = 0`; the function is total (no exception). -/
theorem C9_comparator_division_safety (safe fast : RouteMetrics) :
    (fast.cumulative_risk ≠ 0 →
      (calculateRiskReduction safe fast).risk_reduction_pct
        = (fast.cumulative_risk - safe.cumulative_risk) / fast.cumulative_risk * 100)
  ∧ (fast.cumulative_risk = 0 →
      (calculateRiskReduction safe fast).risk_reduction_pct = 0)
  ∧ (fast.length = 0 →
      (calculateRiskReduction safe fast).length_increase_pct = 0) := by
  refine ⟨fun h => ?_, fun h => ?_, fun h => ?_⟩ <;>
    simp [calculateRiskReduction, h]

/-- C9 witness: the comparator at concrete metrics — an 80% reduction
when the fast risk is 5, and both guarded zeros when the fast metrics are
all zero. -/
theorem C9_witness :
    (calculateRiskReduction { length := 3, cumulative_risk := 1, travel_time := 0, num_edges := 1 }
       { length := 2, cumulative_risk := 5, travel_time := 0, num_edges := 1 }).risk_reduction_pct
      = (5 - 1) / 5 * 100
  ∧ (calculateRiskReduction zeroMetrics zeroMetrics).risk_reduction_pct = 0
  ∧ (calculateRiskReduction zeroMetrics zeroMetrics).length_increase_pct = 0 :=
  ⟨(C9_comparator_division_safety _ _).1 (by norm_num),
   (C9_comparator_division_safety zeroMetrics zeroMetrics).2.1 rfl,
   (C9_comparator_division_safety zeroMetrics zeroMetrics).2.2 rfl⟩

theorem addMetrics_zero_left (a : RouteMetrics) : addMetrics zeroMetrics a = a := by
  cases a
  simp [addMetrics, zeroMetrics]

theorem addMetrics_zero_right (a : RouteMetrics) : addMetrics a zeroMetrics = a := by
  cases a
  simp [addMetrics, zeroMetrics]

theorem addMetrics_assoc (a b c : RouteMetrics) :
    addMetrics (addMetrics a b) c = addMetrics a (addMetrics b c) := by
  cases a
  cases b
  cases c
  simp [addMetrics, add_assoc]

theorem metricsFold (G : Graph) (ps : List (Node × Node)) (acc : RouteMetrics) :
    ps.foldl
      (fun acc p =>
        match (getEdgeData G p.1 p.2).head? with
        | none => acc
        | some d =>
          { length := acc.length + d.length
            cumulative_risk := acc.cumulative_risk + d.risk.getD 0 * d.length
            travel_time := acc.travel_time + d.travel_time
            num_edges := acc.num_edges + 1 })
      acc
    = addMetrics acc
        (metricsOfEdges (ps.filterMap (fun p => (getEdgeData G p.1 p.2).head?))) := by
  induction ps generalizing acc with
  | nil => simp [metricsOfEdges, addMetrics_zero_right]
  | cons p t ih =>
    rw [List.foldl_cons, List.filterMap_cons]
    cases h : (getEdgeData G p.1 p.2).head? with
    | none => rw [ih]
    | some d =>
      rw [ih]
      show addMetrics (addMetrics acc (edgeMetrics d)) _
        = addMetrics acc (metricsOfEdges (d :: _))
      rw [addMetrics_assoc]
      rfl

theorem metricsOfEdges_num_edges (l : List EdgeData) :
    (metricsOfEdges l).num_edges = l.length := by
  induction l with
  | nil => rfl
  | cons d t ih => simp [metricsOfEdges, addMetrics, edgeMetrics] at *; omega

theorem routePairs_length (r : List Node) : (routePairs r).length = r.length - 1 := by
  induction r with
  | nil => rfl
  | cons u t ih =>
    cases t with
    | nil => rfl
    | cons v rest =>
      rw [routePairs, List.length_cons, ih]
      simp

/-- C10 (confirmed): `calculate_route_metrics` is total — a `None` route
or one with fewer than 2 nodes yields all-zero metrics; otherwise the
result is exactly the componentwise sum over those consecutive node
pairs that have at least one connecting edge (a pair with no edge is
silently skipped and contributes nothing), so `num_edges` is at most
`len(route) - 1`. -/
theorem C10_route_metrics_totality (G : Graph) (route : Option (List Node)) :
    calculateRouteMetrics G none = zeroMetrics
  ∧ (∀ r, route = some r → r.length < 2 → calculateRouteMetrics G route = zeroMetrics)
  ∧ (∀ r, route = some r → 2 ≤ r.length →
      calculateRouteMetrics G route
        = metricsOfEdges ((routePairs r).filterMap (fun p => (getEdgeData G p.1 p.2).head?)))
  ∧ (∀ r, route = some r →
      (calculateRouteMetrics G route).num_edges ≤ r.length - 1) := by
  have hchar : ∀ r, 2 ≤ r.length →
      calculateRouteMetrics G (some r)
        = metricsOfEdges ((routePairs r).filterMap (fun p => (getEdgeData G p.1 p.2).head?)) := by
    intro r hr
    rw [calculateRouteMetrics]
    rw [if_neg (by omega)]
    rw [metricsFold, addMetrics_zero_left]
  refine ⟨rfl, ?_, ?_, ?_⟩
  · intro r h hl
    subst h
    rw [calculateRouteMetrics, if_pos hl]
  · intro r h hr
    subst h
    exact hchar r hr
  · intro r h
    subst h
    by_cases hl : r.length < 2
    · rw [calculateRouteMetrics, if_pos hl]
      simp [zeroMetrics]
    · rw [hchar r (by omega), metricsOfEdges_num_edges, ← routePairs_length]
      exact List.length_filterMap_le _ _

/-- Concrete three-node graph whose middle consecutive pair `2 → 3` has
no edge: used to witness the silent skipping of C10. -/
def gC10 : Graph :=
  { nodes := [(1, 0, 0), (2, 1, 0), (3, 2, 0)]
    edges := [((1, 2, 0), { length := 5, travel_time := 7, geometry := [],
                            risk := none, risk_weight := none })] }

/-- C10 witness: on the route `[1, 2, 3]` whose second pair has no edge,
the metrics count only the single existing edge (`num_edges = 1 < 2`). -/
theorem C10_witness :
    calculateRouteMetrics gC10 (some [1, 2, 3])
      = { length := 5, cumulative_risk := 0, travel_time := 7, num_edges := 1 }
  ∧ (calculateRouteMetrics gC10 (some [1, 2, 3])).num_edges ≤ [1, 2, 3].length - 1 := by
  have h := (C10_route_metrics_totality gC10 (some [1, 2, 3])).2.2.1 [1, 2, 3] rfl
    (by norm_num)
  have h2 := (C10_route_metrics_totality gC10 (some [1, 2, 3])).2.2.2 [1, 2, 3] rfl
  refine ⟨?_, h2⟩
  rw [h]
  with_unfolding_all rfl

theorem edgeTileContributions_pos (edge_length : ℚ) (cands : List (String × ℚ))
    (hpos : 0 < edge_length) :
    ∀ c ∈ edgeTileContributions edge_length cands, 0 < c.fraction := by
  intro c hc
  rw [edgeTileContributions] at hc
  rcases List.mem_map.mp hc with ⟨c0, hc0, rfl⟩
  have h0 : 0 < c0.2 := by
    have := (List.mem_filter.mp hc0).2
    simpa using this
  exact div_pos h0 hpos

theorem normalize_sum_one (cs : List Contribution)
    (hpos : ∀ c ∈ cs, 0 < c.fraction) (hne : cs ≠ []) :
    ((normalizeContributions cs).map (fun c => c.fraction)).sum = 1 := by
  have htot : 0 < ((cs.map (fun c => c.fraction)).sum) := by
    apply List.sum_pos
    · intro x hx
      rcases List.mem_map.mp hx with ⟨c, hc, rfl⟩
      exact hpos c hc
    · simpa using hne
  rw [normalizeContributions]
  simp only [htot, if_pos, List.map_map]
  have : ((fun c => c.fraction) ∘ fun c : Contribution =>
      ({ tile_id := c.tile_id,
         fraction := c.fraction / (cs.map (fun c => c.fraction)).sum } : Contribution))
      = fun c : Contribution => c.fraction / (cs.map (fun c => c.fraction)).sum := rfl
  rw [this]
  have hdiv : (cs.map (fun c => c.fraction / (cs.map (fun c => c.fraction)).sum)).sum
      = (cs.map (fun c => c.fraction)).sum / (cs.map (fun c => c.fraction)).sum := by
    simp only [div_eq_mul_inv]
    rw [← List.sum_map_mul_right]
  rw [hdiv, div_self (ne_of_gt htot)]

/-- C2 (confirmed): every edge present in the overlay map produced by
`create_tile_edge_mapping` has contribution fractions summing to exactly
1 (each raw fraction is divided by the pre-normalisation total), hence
certainly within the 1e-6 tolerance; geometric edge lengths are
nonnegative by hypothesis (shapely lengths). -/
theorem C2_overlay_fractions_sum (edges : List EdgeGeom)
    (hlen : ∀ e ∈ edges, 0 ≤ e.edge_length) :
    ∀ eid cs, (eid, cs) ∈ createTileEdgeMapping edges →
      ((cs.map (fun c => c.fraction)).sum = 1
        ∧ |((cs.map (fun c => c.fraction)).sum) - 1| ≤ 1 / 1000000) := by
  intro eid cs h
  rw [createTileEdgeMapping] at h
  rcases List.mem_flatMap.mp h with ⟨e, he, hin⟩
  have hpos : 0 < e.edge_length ∨ e.edge_length = 0 := by
    rcases lt_or_eq_of_le (hlen e he) with h' | h'
    · exact Or.inl h'
    · exact Or.inr h'.symm
  by_cases h0 : e.edge_length = 0
  · rw [if_pos h0] at hin
    simp at hin
  · rw [if_neg h0] at hin
    have hposlen : 0 < e.edge_length := by
      rcases hpos with h' | h'
      · exact h'
      · exact absurd h' h0
    by_cases hemp : (edgeTileContributions e.edge_length e.intersections).isEmpty
    · rw [if_pos hemp] at hin
      simp at hin
    · rw [if_neg hemp] at hin
      have hcs : cs = normalizeContributions (edgeTileContributions e.edge_length e.intersections) := by
        simpa using congrArg Prod.snd (List.mem_singleton.mp hin)
      subst hcs
      have hsum := normalize_sum_one _
        (edgeTileContributions_pos e.edge_length e.intersections hposlen)
        (by simpa [List.isEmpty_iff] using hemp)
      refine ⟨hsum, ?_⟩
      rw [hsum]
      norm_num

/-- Concrete overlay input witnessing C2: one edge of geometric length 2
with intersections of lengths 1 and 2 (raw fractions 1/2 and 1,
normalised to 1/3 and 2/3). -/
def eC2 : List EdgeGeom :=
  [{ eid := (0, 1, 0), edge_length := 2, intersections := [("a", 1), ("b", 2)] }]

/-- C2 witness: the normalised fractions of the single mapped edge sum to
1, within the stated tolerance. -/
theorem C2_witness :
    (((0, 1, 0), [({ tile_id := "a", fraction := 1/3 } : Contribution),
                  { tile_id := "b", fraction := 2/3 }]) ∈ createTileEdgeMapping eC2)
  ∧ (([({ tile_id := "a", fraction := 1/3 } : Contribution),
       { tile_id := "b", fraction := 2/3 }].map (fun c => c.fraction)).sum = 1
      ∧ |(([({ tile_id := "a", fraction := 1/3 } : Contribution),
           { tile_id := "b", fraction := 2/3 }].map (fun c => c.fraction)).sum) - 1|
          ≤ 1 / 1000000) := by
  have hm : ((0, 1, 0), [({ tile_id := "a", fraction := 1/3 } : Contribution),
      { tile_id := "b", fraction := 2/3 }]) ∈ createTileEdgeMapping eC2 :=
    of_decide_eq_true (by with_unfolding_all rfl)
  exact ⟨hm, C2_overlay_fractions_sum eC2
    (of_decide_eq_true (by with_unfolding_all rfl)) (0, 1, 0) _ hm⟩

theorem arangeLen_eq_zero (start stop step : ℚ) (h : (stop - start) / step ≤ 0) :
    arangeLen start stop step = 0 := by
  rw [arangeLen]
  have hc : ⌈(stop - start) / step⌉ ≤ 0 := Int.ceil_le.mpr (by exact_mod_cast h)
  rw [max_eq_right hc]
  rfl

/-- C5 (amended): `create_spatial_grid` performs no parameter validation
and never raises a `ConfigurationError` — with a negative tile size (and
a well-formed axis) or with a degenerate bounding box (min ≥ max on an
axis, positive tile size) it silently returns an **empty** tile set, and
with tile size exactly 0 it fails with `np.arange`'s ZeroDivisionError. -/
theorem C5_grid_builder_failure (xmin ymin xmax ymax ts : ℚ) :
    (ts < 0 → xmin ≤ xmax → createSpatialGrid xmin ymin xmax ymax ts = .ok [])
  ∧ (0 < ts → xmax ≤ xmin → createSpatialGrid xmin ymin xmax ymax ts = .ok [])
  ∧ (0 < ts → ymax ≤ ymin → createSpatialGrid xmin ymin xmax ymax ts = .ok [])
  ∧ (ts = 0 → createSpatialGrid xmin ymin xmax ymax ts = .error .zeroDivision) := by
  refine ⟨?_, ?_, ?_, ?_⟩
  · intro hts hx
    have hz : arangeLen xmin xmax ts = 0 :=
      arangeLen_eq_zero _ _ _
        (div_nonpos_iff.mpr (Or.inl ⟨sub_nonneg.mpr hx, le_of_lt hts⟩))
    rw [createSpatialGrid, if_neg (ne_of_lt hts), hz]
    rfl
  · intro hts hx
    have hz : arangeLen xmin xmax ts = 0 :=
      arangeLen_eq_zero _ _ _
        (div_nonpos_iff.mpr (Or.inr ⟨sub_nonpos.mpr hx, le_of_lt hts⟩))
    rw [createSpatialGrid, if_neg (ne_of_gt hts), hz]
    rfl
  · intro hts hy
    have hz : arangeLen ymin ymax ts = 0 :=
      arangeLen_eq_zero _ _ _
        (div_nonpos_iff.mpr (Or.inr ⟨sub_nonpos.mpr hy, le_of_lt hts⟩))
    rw [createSpatialGrid, if_neg (ne_of_gt hts), hz]
    simp
  · intro hts
    rw [createSpatialGrid, if_pos hts]

/-- C5 counterexample: with tile size -1 on a proper box, and with a
degenerate box (xmin = xmax) and tile size 1, `create_spatial_grid`
returns an empty tile set with no error of any kind; with tile size 0 it
raises numpy's ZeroDivisionError — in no case the claimed
ConfigurationError. -/
theorem C5_counterexample :
    createSpatialGrid 0 0 10 10 (-1) = .ok []
  ∧ createSpatialGrid 0 0 0 10 1 = .ok []
  ∧ createSpatialGrid 0 0 10 10 0 = .error .zeroDivision := by
  refine ⟨?_, ?_, ?_⟩ <;> with_unfolding_all rfl

/-- C5 witness: the amended theorem applied at tile size -2 on the box
(1,2)-(3,4), and at tile size 0. -/
theorem C5_witness :
    createSpatialGrid 1 2 3 4 (-2) = .ok []
  ∧ createSpatialGrid 1 2 3 4 0 = .error .zeroDivision :=
  ⟨(C5_grid_builder_failure 1 2 3 4 (-2)).1 (by norm_num) (by norm_num),
   (C5_grid_builder_failure 1 2 3 4 0).2.2.2 rfl⟩

/-- C8 (confirmed): `predict_next_4_hours` floors the reference instant
to the start of its hour before building the horizon, so any two
reference instants in the same clock hour produce the same horizon
instants and — the predictor being a fixed function — the same risk
map. -/
theorem C8_hourly_idempotence (model : PredictorModel) (tiles : List String)
    (t1 t2 : ℕ) (h : t1 / 3600 = t2 / 3600) :
    predictionHours t1 = predictionHours t2
  ∧ predictNext4Hours model tiles t1 = predictNext4Hours model tiles t2 := by
  have hf : floorToHour t1 = floorToHour t2 := by
    rw [floorToHour, floorToHour]
    omega
  have hh : predictionHours t1 = predictionHours t2 := by
    rw [predictionHours, predictionHours, hf]
  refine ⟨hh, ?_⟩
  cases model with
  | available f => rw [predictNext4Hours, predictNext4Hours, hh]
  | unavailable => rfl

/-- C8 witness: the instants 7200 and 7205 lie in the same clock hour and
yield identical horizons and identical risk maps under a concrete
deterministic predictor. -/
theorem C8_witness :
    (7200 / 3600 = 7205 / 3600)
  ∧ predictionHours 7200 = predictionHours 7205
  ∧ predictNext4Hours (.available (fun _ => [("a", [2/10, 9/10])])) ["a"] 7200
      = predictNext4Hours (.available (fun _ => [("a", [2/10, 9/10])])) ["a"] 7205 :=
  ⟨by norm_num,
   (C8_hourly_idempotence (.available (fun _ => [("a", [2/10, 9/10])])) ["a"]
      7200 7205 (by norm_num)).1,
   (C8_hourly_idempotence (.available (fun _ => [("a", [2/10, 9/10])])) ["a"]
      7200 7205 (by norm_num)).2⟩

theorem foldl_min_attained (f : EdgeData → ℚ) :
    ∀ (l : List EdgeData) (a : ℚ),
      (l.foldl (fun m e => min m (f e)) a ≤ a)
    ∧ (∀ d ∈ l, l.foldl (fun m e => min m (f e)) a ≤ f d)
    ∧ (l.foldl (fun m e => min m (f e)) a = a
        ∨ ∃ d ∈ l, l.foldl (fun m e => min m (f e)) a = f d)
  | [], a => ⟨le_refl a, by intro d hd; simp at hd, Or.inl rfl⟩
  | d :: t, a => by
    have ih := foldl_min_attained f t (min a (f d))
    rw [List.foldl_cons]
    refine ⟨le_trans ih.1 (min_le_left _ _), ?_, ?_⟩
    · intro d' hd'
      rcases List.mem_cons.mp hd' with h | h
      · subst h
        exact le_trans ih.1 (min_le_right _ _)
      · exact ih.2.1 d' h
    · rcases ih.2.2 with h | ⟨d', hd', h⟩
      · rcases min_choice a (f d) with hm | hm
        · exact Or.inl (h.trans hm)
        · exact Or.inr ⟨d, List.mem_cons_self _ _, h.trans hm⟩
      · exact Or.inr ⟨d', List.mem_cons_of_mem _ hd', h⟩

/-- C7 (amended): for path-finding the weight of a step `u → v` is indeed
the minimum selected weight over all parallel edges (it is attained by
one of them and bounds all of them); but `calculate_route_metrics`
instead uses the **first** parallel edge in key insertion order — the
metrics of the one-step route `[u, v]` are exactly the head edge's
attributes, whether or not it is the minimum-weight one. -/
theorem C7_parallel_edge_selection (G : Graph) (w : WeightAttr) (u v : Node) :
    (∀ c, stepWeight G w u v = some c →
        ((∃ d ∈ getEdgeData G u v, c = attrWeight w d)
          ∧ ∀ d ∈ getEdgeData G u v, c ≤ attrWeight w d))
  ∧ (∀ d rest, getEdgeData G u v = d :: rest →
      calculateRouteMetrics G (some [u, v])
        = { length := d.length
            cumulative_risk := d.risk.getD 0 * d.length
            travel_time := d.travel_time
            num_edges := 1 }) := by
  constructor
  · intro c hc
    rw [stepWeight] at hc
    cases hg : getEdgeData G u v with
    | nil => rw [hg] at hc; exact absurd hc (by simp)
    | cons d ds =>
      rw [hg] at hc
      injection hc with hc
      subst hc
      have hmin := foldl_min_attained (attrWeight w) ds (attrWeight w d)
      constructor
      · rcases hmin.2.2 with h | ⟨d', hd', h⟩
        · exact ⟨d, List.mem_cons_self _ _, h⟩
        · exact ⟨d', List.mem_cons_of_mem _ hd', h⟩
      · intro d' hd'
        rcases List.mem_cons.mp hd' with h | h
        · subst h
          exact hmin.1
        · exact hmin.2.1 d' h
  · intro d rest hg
    rw [calculateRouteMetrics]
    rw [if_neg (by norm_num)]
    show List.foldl _ zeroMetrics (routePairs [u, v]) = _
    rw [show routePairs [u, v] = [(u, v)] from rfl]
    rw [List.foldl_cons, List.foldl_nil]
    rw [hg]
    show ({ length := zeroMetrics.length + d.length,
            cumulative_risk := zeroMetrics.cumulative_risk + d.risk.getD 0 * d.length,
            travel_time := zeroMetrics.travel_time + d.travel_time,
            num_edges := zeroMetrics.num_edges + 1 } : RouteMetrics) = _
    simp [zeroMetrics]

/-- Two parallel edges `1 → 2`: key 0 has length 10 and selected weight
10, key 1 has length 1 and selected weight 1 — the minimum-weight
parallel edge is key 1, but the metrics loop reads key 0. -/
def gC7 : Graph :=
  { nodes := [(1, 0, 0), (2, 1, 0)]
    edges := [((1, 2, 0), { length := 10, travel_time := 4, geometry := [],
                            risk := some 0, risk_weight := some 10 }),
              ((1, 2, 1), { length := 1, travel_time := 2, geometry := [],
                            risk := some 0, risk_weight := some 1 })] }

/-- C7 counterexample: path-finding selects weight 1 (the key-1 parallel
edge), yet the route metrics report length 10 — the key-0 edge — so the
metrics are **not** computed from the minimum-weight parallel edge as the
claim states. -/
theorem C7_counterexample :
    stepWeight gC7 .riskWeight 1 2 = some 1
  ∧ (calculateRouteMetrics gC7 (some [1, 2])).length = 10
  ∧ ¬ ((10 : ℚ) = 1) := by
  refine ⟨?_, ?_, by norm_num⟩ <;> with_unfolding_all rfl

/-- C7 witness: the amended theorem applied to the two-parallel-edge
graph — the step weight 1 is attained and minimal, and the one-step
metrics equal the head edge's attributes. -/
theorem C7_witness :
    ((∃ d ∈ getEdgeData gC7 1 2, (1 : ℚ) = attrWeight .riskWeight d)
      ∧ ∀ d ∈ getEdgeData gC7 1 2, (1 : ℚ) ≤ attrWeight .riskWeight d)
  ∧ calculateRouteMetrics gC7 (some [1, 2])
      = { length := 10, cumulative_risk := 0, travel_time := 4, num_edges := 1 } := by
  have h := C7_parallel_edge_selection gC7 .riskWeight 1 2
  refine ⟨h.1 1 (of_decide_eq_true (by with_unfolding_all rfl)), ?_⟩
  have h2 := h.2
    ({ length := 10, travel_time := 4, geometry := [], risk := some 0, risk_weight := some 10 })
    [{ length := 1, travel_time := 2, geometry := [], risk := some 0, risk_weight := some 1 }]
    (by with_unfolding_all rfl)
  rw [h2]
  with_unfolding_all rfl

theorem foldl_min_congr (f g : EdgeData → ℚ) :
    ∀ (l : List EdgeData), (∀ d ∈ l, f d = g d) → ∀ (a : ℚ),
      l.foldl (fun m e => min m (f e)) a = l.foldl (fun m e => min m (g e)) a
  | [], _, _ => rfl
  | d :: t, h, a => by
    rw [List.foldl_cons, List.foldl_cons, h d (List.mem_cons_self d t)]
    exact foldl_min_congr f g t (fun x hx => h x (List.mem_cons_of_mem _ hx)) _

theorem stepWeight_congr (G : Graph) (w1 w2 : WeightAttr)
    (h : ∀ p ∈ G.edges, attrWeight w1 p.2 = attrWeight w2 p.2) (u v : Node) :
    stepWeight G w1 u v = stepWeight G w2 u v := by
  have hd : ∀ d ∈ getEdgeData G u v, attrWeight w1 d = attrWeight w2 d := by
    intro d hdm
    rw [getEdgeData] at hdm
    rcases List.mem_map.mp hdm with ⟨p, hp, rfl⟩
    exact h p (List.mem_of_mem_filter hp)
  rw [stepWeight, stepWeight]
  cases hg : getEdgeData G u v with
  | nil => rfl
  | cons d ds =>
    have hmem : ∀ x ∈ d :: ds, attrWeight w1 x = attrWeight w2 x := by
      rw [← hg]
      exact hd
    show some (ds.foldl (fun m e => min m (attrWeight w1 e)) (attrWeight w1 d))
        = some (ds.foldl (fun m e => min m (attrWeight w2 e)) (attrWeight w2 d))
    rw [hmem d (List.mem_cons_self _ _),
      foldl_min_congr (attrWeight w1) (attrWeight w2) ds
        (fun x hx => hmem x (List.mem_cons_of_mem _ hx))]

theorem pathWeight_congr (G : Graph) (w1 w2 : WeightAttr)
    (h : ∀ p ∈ G.edges, attrWeight w1 p.2 = attrWeight w2 p.2) :
    ∀ (r : List Node), pathWeight G w1 r = pathWeight G w2 r
  | [] => rfl
  | [_] => rfl
  | u :: v :: rest => by
    rw [pathWeight, pathWeight, stepWeight_congr G w1 w2 h u v,
      pathWeight_congr G w1 w2 h (v :: rest)]

theorem shortestPath_congr (G : Graph) (w1 w2 : WeightAttr)
    (h : ∀ p ∈ G.edges, attrWeight w1 p.2 = attrWeight w2 p.2) (s t : Node) :
    shortestPath G w1 s t = shortestPath G w2 s t := by
  rw [shortestPath, shortestPath]
  have hfun : (fun (best : Option (List Node × ℚ)) (p : List Node) =>
      match pathWeight G w1 p with
      | none => best
      | some c =>
        match best with
        | none => some (p, c)
        | some (bp, bc) => if c < bc then some (p, c) else some (bp, bc))
    = (fun (best : Option (List Node × ℚ)) (p : List Node) =>
      match pathWeight G w2 p with
      | none => best
      | some c =>
        match best with
        | none => some (p, c)
        | some (bp, bc) => if c < bc then some (p, c) else some (bp, bc)) := by
    funext best p
    rw [pathWeight_congr G w1 w2 h p]
  rw [hfun]

theorem findSafeRoute_congr (G : Graph) (w1 w2 : WeightAttr)
    (h : ∀ p ∈ G.edges, attrWeight w1 p.2 = attrWeight w2 p.2)
    (origin_point dest_point : ℚ × ℚ) :
    findSafeRoute G origin_point dest_point w1 = findSafeRoute G origin_point dest_point w2 := by
  rw [findSafeRoute, findSafeRoute]
  cases nearestNode G origin_point with
  | none => rfl
  | some s =>
    cases nearestNode G dest_point with
    | none => rfl
    | some t => exact shortestPath_congr G w1 w2 h s t

theorem tileRisk_zero (risks : List (String × ℚ)) (t : String)
    (hz : ∀ q ∈ risks, q.2 = 0) : tileRisk risks t = 0 := by
  rw [tileRisk]
  cases hl : lookupA risks t with
  | none => rfl
  | some r => simpa using hz (t, r) (lookupA_mem hl)

theorem edgeRisk_zero (mapping : List (EdgeKey × List Contribution))
    (risks : List (String × ℚ)) (e : EdgeKey)
    (hz : ∀ q ∈ risks, q.2 = 0) : edgeRisk mapping risks e = 0 := by
  rw [edgeRisk]
  split
  · next cs _ =>
    rw [foldl_add_map, zero_add]
    apply List.sum_eq_zero
    intro x hx
    rcases List.mem_map.mp hx with ⟨c, _, rfl⟩
    rw [tileRisk_zero risks c.tile_id hz, zero_mul]
  · rfl

theorem weighted_zero_risk (G : Graph) (mapping : List (EdgeKey × List Contribution))
    (risks : List (String × ℚ)) (hz : ∀ q ∈ risks, q.2 = 0) :
    ∀ p ∈ (applyRiskWeights G mapping risks).edges,
      attrWeight .riskWeight p.2 = attrWeight .length p.2 := by
  intro p hp
  rw [applyRiskWeights] at hp
  rcases List.mem_map.mp hp with ⟨q, _, rfl⟩
  rw [edgeRisk_zero mapping risks q.1 hz]
  show (some (q.2.length * (1 + 0))).getD 1 = q.2.length
  rw [Option.getD_some, add_zero, mul_one]

/-- C3 (confirmed): when every tile of the risk map has risk 0, every
edge of the weighted graph gets `risk_weight = length`, so
`find_safe_route` with the `risk_weight` selector returns the same route
as with the `length` selector, for every origin/destination pair. -/
theorem C3_zero_risk_reduces_to_distance (G : Graph)
    (mapping : List (EdgeKey × List Contribution)) (risks : List (String × ℚ))
    (origin_point dest_point : ℚ × ℚ) (hz : ∀ q ∈ risks, q.2 = 0) :
    findSafeRoute (applyRiskWeights G mapping risks) origin_point dest_point .riskWeight
      = findSafeRoute (applyRiskWeights G mapping risks) origin_point dest_point .length :=
  findSafeRoute_congr _ .riskWeight .length
    (weighted_zero_risk G mapping risks hz) origin_point dest_point

/-- Two-node, one-edge network used to witness C3. -/
def gC3 : Graph :=
  { nodes := [(1, 0, 0), (2, 10, 0)]
    edges := [((1, 2, 0), { length := 5, travel_time := 6, geometry := [],
                            risk := none, risk_weight := none })] }

/-- C3 witness: with an all-zero risk map on the concrete network, the
`risk_weight` route and the `length` route coincide. -/
theorem C3_witness :
    (∀ q ∈ [(("tile_0_0" : String), (0 : ℚ))], q.2 = 0)
  ∧ findSafeRoute (applyRiskWeights gC3 [((1, 2, 0), [{ tile_id := "tile_0_0", fraction := 1 }])]
        [("tile_0_0", 0)]) (0, 0) (10, 0) .riskWeight
      = findSafeRoute (applyRiskWeights gC3 [((1, 2, 0), [{ tile_id := "tile_0_0", fraction := 1 }])]
        [("tile_0_0", 0)]) (0, 0) (10, 0) .length :=
  ⟨of_decide_eq_true (by with_unfolding_all rfl),
   C3_zero_risk_reduces_to_distance gC3
     [((1, 2, 0), [{ tile_id := "tile_0_0", fraction := 1 }])] [("tile_0_0", 0)]
     (0, 0) (10, 0) (of_decide_eq_true (by with_unfolding_all rfl))⟩

theorem getD_lt_of_forall (l : List ℕ) (B : ℕ) (hB : 0 < B)
    (h : ∀ x ∈ l, x < B) (i : ℕ) : l.getD i 0 < B := by
  rw [List.getD_eq_getElem?_getD]
  cases hi : l[i]? with
  | none => simpa using hB
  | some x =>
    rcases List.getElem?_eq_some.mp hi with ⟨hn, rfl⟩
    simpa using h _ (List.getElem_mem hn)

theorem mtSeedStep_lt (prev i : ℕ) : mtSeedStep prev i < 2 ^ 32 := by
  have h : mtSeedStep prev i ≤ 4294967295 := Nat.and_le_right
  omega

theorem foldl_preserve {α β : Type} (P : α → Prop) (f : α → β → α)
    (hf : ∀ a b, P a → P (f a b)) :
    ∀ (r : List β) (a : α), P a → P (r.foldl f a)
  | [], _, h => h
  | b :: t, a, h => foldl_preserve P f hf t (f a b) (hf a b h)

theorem mtInitRev_lt (seed : ℕ) : ∀ x ∈ mtInitRev seed, x < 2 ^ 32 := by
  rw [mtInitRev]
  apply foldl_preserve (fun l => ∀ x ∈ l, x < 2 ^ 32)
    (fun l i => mtSeedStep (l.headD 0) (i + 1) :: l)
  · intro a b h x hx
    rcases List.mem_cons.mp hx with rfl | hx'
    · exact mtSeedStep_lt _ _
    · exact h x hx'
  · intro x hx
    rw [List.mem_singleton.mp hx]
    have h : seed &&& 4294967295 ≤ 4294967295 := Nat.and_le_right
    omega

theorem mtInit_lt (seed : ℕ) : ∀ x ∈ mtInit seed, x < 2 ^ 32 := by
  intro x hx
  exact mtInitRev_lt seed x (List.mem_reverse.mp hx)

theorem mtTwistStep_lt (l : List ℕ) (h : ∀ x ∈ l, x < 2 ^ 32) (i : ℕ) :
    ∀ x ∈ mtTwistStep l i, x < 2 ^ 32 := by
  intro x hx
  rw [mtTwistStep] at hx
  rcases List.mem_or_eq_of_mem_set hx with hx' | rfl
  · exact h x hx'
  · have ha : l.getD ((i + 397) % 624) 0 < 2 ^ 32 :=
      getD_lt_of_forall l _ (by norm_num) h _
    have hy : (l.getD i 0 &&& 2147483648) + (l.getD ((i + 1) % 624) 0 &&& 2147483647)
        < 2 ^ 32 := by
      have h1 : l.getD i 0 &&& 2147483648 ≤ 2147483648 := Nat.and_le_right
      have h2 : l.getD ((i + 1) % 624) 0 &&& 2147483647 ≤ 2147483647 := Nat.and_le_right
      omega
    have hs : ((l.getD i 0 &&& 2147483648) + (l.getD ((i + 1) % 624) 0 &&& 2147483647)) >>> 1
        < 2 ^ 32 := by
      rw [Nat.shiftRight_eq_div_pow]
      omega
    have hm : (if ((l.getD i 0 &&& 2147483648) + (l.getD ((i + 1) % 624) 0 &&& 2147483647)) &&& 1 = 1
        then 2567483615 else 0) < 2 ^ 32 := by
      split <;> norm_num
    exact Nat.xor_lt_two_pow (Nat.xor_lt_two_pow ha hs) hm

theorem mtTwist_lt (l : List ℕ) (h : ∀ x ∈ l, x < 2 ^ 32) :
    ∀ x ∈ mtTwist l, x < 2 ^ 32 := by
  rw [mtTwist]
  exact foldl_preserve (fun l => ∀ x ∈ l, x < 2 ^ 32) mtTwistStep
    (fun a b ha => mtTwistStep_lt a ha b) _ l h

theorem mtTemper_lt (y : ℕ) (h : y < 2 ^ 32) : mtTemper y < 2 ^ 32 := by
  rw [mtTemper]
  have h1 : y ^^^ (y >>> 11) < 2 ^ 32 := by
    apply Nat.xor_lt_two_pow h
    rw [Nat.shiftRight_eq_div_pow]
    omega
  have h2 : (y ^^^ (y >>> 11)) ^^^ ((y ^^^ (y >>> 11)) <<< 7 &&& 2636928640) < 2 ^ 32 := by
    apply Nat.xor_lt_two_pow h1
    have := Nat.and_le_right (n := (y ^^^ (y >>> 11)) <<< 7) (m := 2636928640)
    omega
  apply Nat.xor_lt_two_pow
  · apply Nat.xor_lt_two_pow h2
    have := Nat.and_le_right
      (n := ((y ^^^ (y >>> 11)) ^^^ ((y ^^^ (y >>> 11)) <<< 7 &&& 2636928640)) <<< 15)
      (m := 4022730752)
    omega
  · rw [Nat.shiftRight_eq_div_pow]
    have h3 : (y ^^^ (y >>> 11)) ^^^ ((y ^^^ (y >>> 11)) <<< 7 &&& 2636928640) < 2 ^ 32 := h2
    have := Nat.and_le_right
      (n := ((y ^^^ (y >>> 11)) ^^^ ((y ^^^ (y >>> 11)) <<< 7 &&& 2636928640)) <<< 15)
      (m := 4022730752)
    have h4 : ((y ^^^ (y >>> 11)) ^^^ ((y ^^^ (y >>> 11)) <<< 7 &&& 2636928640)) ^^^
        (((y ^^^ (y >>> 11)) ^^^ ((y ^^^ (y >>> 11)) <<< 7 &&& 2636928640)) <<< 15 &&& 4022730752)
        < 2 ^ 32 := by
      apply Nat.xor_lt_two_pow h2
      omega
    omega

theorem mtState_lt (seed k : ℕ) :
    ∀ x ∈ (List.range k).foldl (fun l _ => mtTwist l) (mtInit seed), x < 2 ^ 32 :=
  foldl_preserve (fun l => ∀ x ∈ l, x < 2 ^ 32) (fun l _ => mtTwist l)
    (fun a _ ha => mtTwist_lt a ha) _ _ (mtInit_lt seed)

theorem mtOutput_lt (seed i : ℕ) : mtOutput seed i < 2 ^ 32 := by
  rw [mtOutput]
  exact mtTemper_lt _ (getD_lt_of_forall _ _ (by norm_num) (mtState_lt seed _) _)

theorem mtRandomDouble_nonneg (seed j : ℕ) : 0 ≤ mtRandomDouble seed j := by
  rw [mtRandomDouble]
  positivity

theorem mtRandomDouble_lt_one (seed j : ℕ) : mtRandomDouble seed j < 1 := by
  rw [mtRandomDouble, div_lt_one (by norm_num)]
  have h1 : mtOutput seed (2 * j) >>> 5 < 2 ^ 27 := by
    have := mtOutput_lt seed (2 * j)
    rw [Nat.shiftRight_eq_div_pow]
    omega
  have h2 : mtOutput seed (2 * j + 1) >>> 6 < 2 ^ 26 := by
    have := mtOutput_lt seed (2 * j + 1)
    rw [Nat.shiftRight_eq_div_pow]
    omega
  have hnum : (mtOutput seed (2 * j) >>> 5) * 67108864 + (mtOutput seed (2 * j + 1) >>> 6)
      < 9007199254740992 := by omega
  exact_mod_cast hnum

/-- C6 (amended): when the predictor model has no `predict` method
(`AttributeError` path), `predict_next_4_hours` still returns a complete
risk map — one entry per tile, in order — but the fallback is **not**
zero: each tile gets a seeded pseudo-random risk in `[0, 0.3)` drawn from
`np.random.seed(42)`, so risk-weighted routing does not in general reduce
to distance routing. -/
theorem C6_degraded_mode (tiles : List String) (reference_time : ℕ) :
    (predictNext4Hours .unavailable tiles reference_time).map (fun p => p.1) = tiles
  ∧ ∀ p ∈ predictNext4Hours .unavailable tiles reference_time,
      0 ≤ p.2 ∧ p.2 < 3 / 10 := by
  constructor
  · show (tiles.enum.map (fun p => (p.2, mtRandomDouble 42 p.1 * (3 / 10)))).map
        (fun p => p.1) = tiles
    rw [List.map_map]
    show tiles.enum.map Prod.snd = tiles
    simp
  · intro p hp
    have hp' : p ∈ tiles.enum.map (fun p => (p.2, mtRandomDouble 42 p.1 * (3 / 10))) := hp
    rcases List.mem_map.mp hp' with ⟨q, _, rfl⟩
    constructor
    · exact mul_nonneg (mtRandomDouble_nonneg 42 q.1) (by norm_num)
    · have h := mtRandomDouble_lt_one 42 q.1
      nlinarith

/-- One-edge network (length 100) lying fully inside the single tile
`tile_0_0`: used to show the fallback risk map does not reduce
`risk_weight` to `length`. -/
def gC6 : Graph :=
  { nodes := [(1, 0, 0), (2, 100, 0)]
    edges := [((1, 2, 0), { length := 100, travel_time := 0, geometry := [],
                            risk := none, risk_weight := none })] }

/-- Overlay mapping putting the whole edge inside `tile_0_0`. -/
def mC6 : List (EdgeKey × List Contribution) :=
  [((1, 2, 0), [{ tile_id := "tile_0_0", fraction := 1 }])]

/-- C6 counterexample: with the predictor unavailable, the fallback risk
for the first tile is the seeded draw
`0.3745401188473625... * 0.3 = 5060336219028849/45035996273704960 ≠ 0`,
and weighting a length-100 edge fully inside that tile yields
`risk_weight ≠ length` — routing does **not** degrade to pure distance
routing, contradicting the claimed zero-risk fallback. -/
theorem C6_counterexample :
    predictNext4Hours .unavailable ["tile_0_0"] 0
      = [("tile_0_0", 5060336219028849 / 45035996273704960)]
  ∧ ¬ ((5060336219028849 : ℚ) / 45035996273704960 = 0)
  ∧ (applyRiskWeights gC6 mC6 (predictNext4Hours .unavailable ["tile_0_0"] 0)).edges.map
      (fun p => (p.2.risk_weight, p.2.length))
      = [(some (100 * (1 + 5060336219028849 / 45035996273704960)), 100)]
  ∧ ¬ ((100 : ℚ) * (1 + 5060336219028849 / 45035996273704960) = 100) := by
  have h1 : predictNext4Hours .unavailable ["tile_0_0"] 0
      = [("tile_0_0", 5060336219028849 / 45035996273704960)] := by
    with_unfolding_all rfl
  refine ⟨h1, by norm_num, ?_, by norm_num⟩
  rw [h1]
  with_unfolding_all rfl

/-- C6 witness: the amended theorem applied to the one-tile list — the
fallback map covers the tile and its concrete value lies in `[0, 0.3)`. -/
theorem C6_witness :
    (predictNext4Hours .unavailable ["tile_0_0"] 0).map (fun p => p.1) = ["tile_0_0"]
  ∧ (0 ≤ (5060336219028849 : ℚ) / 45035996273704960
      ∧ (5060336219028849 : ℚ) / 45035996273704960 < 3 / 10) :=
  ⟨(C6_degraded_mode ["tile_0_0"] 0).1,
   (C6_degraded_mode ["tile_0_0"] 0).2 ("tile_0_0", 5060336219028849 / 45035996273704960)
     (by
       rw [show predictNext4Hours .unavailable ["tile_0_0"] 0
           = [("tile_0_0", 5060336219028849 / 45035996273704960)] from by
         with_unfolding_all rfl]
       exact List.mem_singleton.mpr rfl)⟩
